import Mathlib

/-!
Shallow embedding of `flask_gatekeeper/gatekeeper.py` (the `IP` record and the
`GateKeeper` class).  Timestamps are modelled as rationals (`time.time()`
returns a float); Python `int()` truncation is modelled by `pyInt`; the
per-client Python `dict` is modelled by an insertion-ordered association
list; `collections.deque(maxlen=n)` is modelled by `dequeAppend`.
-/

namespace Gatekeeper

/-- A rate-limit rule `{"count": int, "window": int}` (gatekeeper.py lines 41-43). -/
structure RateRule where
  count : Nat
  window : ℚ
deriving DecidableEq, Repr

/-- A ban rule `{"count": int, "window": int, "duration": int}` (lines 36-39). -/
structure BanRule where
  count : Nat
  window : ℚ
  duration : ℚ
deriving DecidableEq, Repr

/-- Python `int()` applied to a float: truncation toward zero
(floor for nonnegative arguments, ceiling for negative ones). -/
def pyInt (x : ℚ) : ℤ := if 0 ≤ x then ⌊x⌋ else ⌈x⌉

/-- Append on `collections.deque(maxlen := cap)`: with `maxlen` 0 the deque
stays empty; when the deque is full the oldest (leftmost) element is evicted. -/
def dequeAppend (cap : Nat) (buf : List ℚ) (t : ℚ) : List ℚ :=
  if cap = 0 then []
  else if buf.length = cap then buf.tail ++ [t]
  else buf ++ [t]

/-- The per-client `IP` record (lines 10-24): two timestamp deques and the
`ban_active_until` instant (0 meaning "no active ban"). -/
structure IPState where
  ban_entries : List ℚ
  rate_entries : List ℚ
  ban_active_until : ℚ
deriving DecidableEq, Repr

/-- A fresh `IP` record: empty deques, `ban_active_until = 0` (lines 18-20). -/
def IPState.init : IPState := ⟨[], [], 0⟩

/-- `IP.add_report` (line 23): append the current time to `ban_entries`;
the deque capacity `ban_count` is fixed per `GateKeeper` (line 113). -/
def addReport (banCap : Nat) (st : IPState) (now : ℚ) : IPState :=
  { st with ban_entries := dequeAppend banCap st.ban_entries now }

/-- `IP.add_entry` (line 24): append the current time to `rate_entries`. -/
def addEntry (rateCap : Nat) (st : IPState) (now : ℚ) : IPState :=
  { st with rate_entries := dequeAppend rateCap st.rate_entries now }

/-- The list comprehension `[e for e in entries if e >= time_now - window]`
(lines 142 and 163-164): the in-window entries, in insertion order. -/
def inWindow (entries : List ℚ) (window now : ℚ) : List ℚ :=
  entries.filter (fun e => decide (now - window ≤ e))

/-- The dict returned by `_is_ip_banned` on a breach (lines 145 and 151). -/
structure BanBreach where
  ip : String
  window : ℚ
  count : Nat
  /-- Python raises `IndexError` evaluating `ban_entries[-1]` on an empty
  deque (reachable only with `count = 0`); that case is modelled as `none`. -/
  retry : Option ℤ
deriving DecidableEq, Repr

/-- The dict returned by `_is_ip_rate_limited` on a breach (line 168). -/
structure RateBreach where
  ip : String
  window : ℚ
  count : Nat
  /-- Python raises `IndexError` evaluating `rule_entries[0]` on an empty
  list (reachable only with `count = 0`); that case is modelled as `none`. -/
  retry : Option ℤ
deriving DecidableEq, Repr

/-- `GateKeeper._is_ip_banned` (lines 136-155), as a function of the client's
state returning the optional breach dict and the updated state.
Line 167's `int(...) or 0` is the identity on integers, so it is omitted. -/
def isIpBanned (rule : BanRule) (ip : String) (st : IPState) (now : ℚ) :
    Option BanBreach × IPState :=
  if st.ban_active_until = 0 then
    if rule.count ≤ (inWindow st.ban_entries rule.window now).length then
      match st.ban_entries.getLast? with
      | some last =>
          let banned_for : ℤ := pyInt (last + rule.duration - now)
          (some ⟨ip, rule.window, rule.count, some banned_for⟩,
           { st with ban_active_until := now + (banned_for : ℚ) })
      | none => (some ⟨ip, rule.window, rule.count, none⟩, st)
    else (none, st)
  else
    if now < st.ban_active_until then
      (some ⟨ip, rule.window, rule.count, some (pyInt (st.ban_active_until - now))⟩, st)
    else (none, { st with ban_active_until := 0 })

/-- `GateKeeper._is_ip_rate_limited` (lines 157-169): scan the rules in order
and return the first breach, with `retry = int(rule_entries[0] + window - now)`
(`int(...) or 0` at line 166-167 is the identity on integers). -/
def isIpRateLimited (rules : List RateRule) (ip : String) (entries : List ℚ)
    (now : ℚ) : Option RateBreach :=
  match rules with
  | [] => none
  | rule :: rest =>
      let ruleEntries := inWindow entries rule.window now
      if rule.count ≤ ruleEntries.length then
        some ⟨ip, rule.window, rule.count,
              ruleEntries.head?.map (fun e => pyInt (e + rule.window - now))⟩
      else isIpRateLimited rest ip entries now

/-- The maximum `count` over the rate rules, 0 when there are none (line 67). -/
def maxCount (rules : List RateRule) : Nat :=
  (rules.map RateRule.count).foldr max 0

/-- The `GateKeeper` instance state: configuration fixed at construction
plus the mutable `ips` dict and `bypass_routes` set (lines 64-72). -/
structure GKState where
  ban_rule : Option BanRule
  ban_count : Nat
  rate_limit_rules : List RateRule
  rate_count : Nat
  excluded_methods : List String
  bypass_routes : List String
  ips : List (String × IPState)
deriving DecidableEq, Repr

/-- `GateKeeper.__init__` (lines 64-74): stores the rules and derives the
deque capacities; it performs no validation and always completes. -/
def gkInit (ban_rule : Option BanRule) (rate_limit_rules : List RateRule)
    (excluded_methods : List String) : GKState :=
  { ban_rule := ban_rule
    ban_count := match ban_rule with | some b => b.count | none => 0
    rate_limit_rules := rate_limit_rules
    rate_count := maxCount rate_limit_rules
    excluded_methods := excluded_methods
    bypass_routes := []
    ips := [] }

/-- Lookup in the insertion-ordered `ips` dict. -/
def alookup : List (String × IPState) → String → Option IPState
  | [], _ => none
  | (k, v) :: rest, ip => if k = ip then some v else alookup rest ip

/-- Dict assignment `ips[ip] = st`: replace the binding if present,
otherwise append (Python dicts are insertion ordered). -/
def aset : List (String × IPState) → String → IPState → List (String × IPState)
  | [], ip, v => [(ip, v)]
  | (k, w) :: rest, ip, v =>
      if k = ip then (k, v) :: rest else (k, w) :: aset rest ip v

/-- `GateKeeper._create` (lines 110-113): get-or-create the client record. -/
def gkCreate (gk : GKState) (ip : String) : GKState :=
  if (alookup gk.ips ip).isSome then gk
  else { gk with ips := gk.ips ++ [(ip, IPState.init)] }

/-- The decision produced for a request: proceed, or short-circuit with the
403 ban response (`_ban_func`) or the 429 rate-limit response
(`_rate_limit_func`). -/
inductive Decision where
  | allow : Decision
  | denyBan : BanBreach → Decision
  | denyRate : RateBreach → Decision
deriving DecidableEq, Repr

/-- Lines 125-129 of `_before_request`: the ban check runs only when a
`ban_rule` is configured; it may mutate the client state in place. -/
def banStage (gk : GKState) (ip : String) (st : IPState) (now : ℚ) :
    Option BanBreach × IPState :=
  match gk.ban_rule with
  | some brule => isIpBanned brule ip st now
  | none => (none, st)

/-- Lines 130-134 of `_before_request`: the rate check runs only when rate
rules are configured; `add_entry` runs whenever the request is not denied. -/
def rateStage (gk : GKState) (ip : String) (st : IPState) (now : ℚ) :
    Decision × GKState :=
  if gk.rate_limit_rules ≠ [] then
    match isIpRateLimited gk.rate_limit_rules ip st.rate_entries now with
    | some b => (Decision.denyRate b, { gk with ips := aset gk.ips ip st })
    | none =>
        (Decision.allow,
         { gk with ips := aset gk.ips ip (addEntry gk.rate_count st now) })
  else
    (Decision.allow,
     { gk with ips := aset gk.ips ip (addEntry gk.rate_count st now) })

/-- `GateKeeper._before_request` (lines 115-134): skip everything when the
method is excluded or the endpoint is in `bypass_routes`; otherwise
get-or-create the client, run the ban check, then the rate check, and
record one rate entry on pass. -/
def beforeRequest (gk : GKState) (method endpoint ip : String) (now : ℚ) :
    Decision × GKState :=
  if method ∉ gk.excluded_methods ∧ endpoint ∉ gk.bypass_routes then
    match banStage (gkCreate gk ip) ip
        ((alookup (gkCreate gk ip).ips ip).getD IPState.init) now with
    | (some b, st1) =>
        (Decision.denyBan b,
         { gkCreate gk ip with ips := aset (gkCreate gk ip).ips ip st1 })
    | (none, st1) => rateStage (gkCreate gk ip) ip st1 now
  else (Decision.allow, gk)

/-- `GateKeeper.report` (lines 175-184): `self.ips[client_ip].add_report()`.
There is no get-or-create here, so an identifier that is not in the dict
raises `KeyError`, modelled by `none`. -/
def report (gk : GKState) (ip : String) (now : ℚ) : Option GKState :=
  match alookup gk.ips ip with
  | none => none
  | some st => some { gk with ips := aset gk.ips ip (addReport gk.ban_count st now) }

/-- `GateKeeper.bypass` (lines 186-194): adds the wrapped function's
`__name__` to the `bypass_routes` set. -/
def bypassRoute (gk : GKState) (name : String) : GKState :=
  { gk with bypass_routes := List.insert name gk.bypass_routes }

/-- Line 226: `specific(..., standalone := True)` adds the route function's
`__name__` to the same `bypass_routes` set as `bypass`. -/
def standaloneRegister (gk : GKState) (routeName : String) : GKState :=
  { gk with bypass_routes := List.insert routeName gk.bypass_routes }

/-- A registered route; Flask's default endpoint for a view function is the
function's `__name__`, which `@wraps` preserves (lines 188, 192, 208). -/
structure Route where
  handlerName : String
deriving DecidableEq, Repr

/-- The endpoint under which a request to this route is dispatched. -/
def endpointOf (r : Route) : String := r.handlerName

/-- An app with a global `GateKeeper` and the per-route instance created by
`GateKeeper.specific` (line 205) for one overlay route. -/
structure OverlayApp where
  gk : GKState
  sgk : GKState
deriving DecidableEq, Repr

/-- The `wrapper` installed by `GateKeeper.specific` around a route
(lines 207-222): get-or-create the client in the route's own instance,
replay the rate check there, and record an entry when not denied.  It
checks neither bans nor excluded methods nor bypass routes. -/
def specificWrapper (sgk : GKState) (ip : String) (now : ℚ) : Decision × GKState :=
  if (gkCreate sgk ip).rate_limit_rules ≠ [] then
    match isIpRateLimited (gkCreate sgk ip).rate_limit_rules ip
        ((alookup (gkCreate sgk ip).ips ip).getD IPState.init).rate_entries now with
    | some b => (Decision.denyRate b, gkCreate sgk ip)
    | none =>
        (Decision.allow,
         { gkCreate sgk ip with
             ips := aset (gkCreate sgk ip).ips ip
               (addEntry (gkCreate sgk ip).rate_count
                 ((alookup (gkCreate sgk ip).ips ip).getD IPState.init) now) })
  else
    (Decision.allow,
     { gkCreate sgk ip with
         ips := aset (gkCreate sgk ip).ips ip
           (addEntry (gkCreate sgk ip).rate_count
             ((alookup (gkCreate sgk ip).ips ip).getD IPState.init) now) })

/-- Handling a request to a non-standalone `specific` route: Flask first runs
the registered `_before_request` of the global instance (line 173); only when
that returns `None` does the decorated view run, whose wrapper consults the
route's own instance (lines 207-222). -/
def handleOverlay (app : OverlayApp) (method endpoint ip : String) (now : ℚ) :
    Decision × OverlayApp :=
  match beforeRequest app.gk method endpoint ip now with
  | (Decision.allow, gk') =>
      ((specificWrapper app.sgk ip now).1, ⟨gk', (specificWrapper app.sgk ip now).2⟩)
  | (d, gk') => (d, ⟨gk', app.sgk⟩)

/-- One admission step of the counted rate path (lines 130-134) for a single
client, in terms of the evaluator and the deque append: `true` means the
request proceeds and its timestamp is recorded. -/
def rateAdmit (rules : List RateRule) (cap : Nat) (ip : String)
    (entries : List ℚ) (now : ℚ) : Bool × List ℚ :=
  match isIpRateLimited rules ip entries now with
  | some _ => (false, entries)
  | none => (true, dequeAppend cap entries now)

/-- Iterate `rateAdmit` over a list of request times, collecting the
admission flags and the final recorded entries. -/
def rateRun (rules : List RateRule) (cap : Nat) (ip : String) :
    List ℚ → List ℚ → List Bool × List ℚ
  | entries, [] => ([], entries)
  | entries, t :: ts =>
      let step := rateAdmit rules cap ip entries t
      let rest := rateRun rules cap ip step.2 ts
      (step.1 :: rest.1, rest.2)

/-- Capacity bound on one client record: the deques never outgrow the
`maxlen` values they were constructed with (lines 18-19). -/
def capOk (banCap rateCap : Nat) (st : IPState) : Prop :=
  st.ban_entries.length ≤ banCap ∧ st.rate_entries.length ≤ rateCap

/-- Capacity bound on every tracked client of an instance. -/
def capInv (gk : GKState) : Prop :=
  ∀ ip st, alookup gk.ips ip = some st → capOk gk.ban_count gk.rate_count st

/-- An instance whose client `198.51.100.9` is serving a ban until t = 100,
with `HEAD` as an excluded method. -/
def gkBannedDemo : GKState :=
  { ban_rule := some ⟨3, 10, 10⟩
    ban_count := 3
    rate_limit_rules := [⟨20, 1⟩]
    rate_count := 20
    excluded_methods := ["HEAD"]
    bypass_routes := []
    ips := [("198.51.100.9", ⟨[], [], 100⟩)] }

/-- An app with a global rule of 2 requests per 10 s and an overlay route
rule of 1 request per 10 s, as in the repository's own test setup. -/
def overlayDemo0 : OverlayApp :=
  ⟨gkInit none [⟨2, 10⟩] [], gkInit none [⟨1, 10⟩] []⟩

/-- `overlayDemo0` after one request to the overlay route at t = 0. -/
def overlayDemo1 : OverlayApp :=
  (handleOverlay overlayDemo0 "GET" "specific" "192.0.2.5" 0).2

/-! Helper lemmas about the embedded operations. -/

theorem isIpRateLimited_isSome_iff (rules : List RateRule) (ip : String)
    (entries : List ℚ) (now : ℚ) :
    (isIpRateLimited rules ip entries now).isSome ↔
      ∃ r ∈ rules, r.count ≤ (inWindow entries r.window now).length := by
  induction rules with
  | nil => simp [isIpRateLimited]
  | cons rule rest ih =>
      by_cases h : rule.count ≤ (inWindow entries rule.window now).length
      · simp only [isIpRateLimited, if_pos h, Option.isSome_some, true_iff]
        exact ⟨rule, List.mem_cons_self rule rest, h⟩
      · simp only [isIpRateLimited, if_neg h, ih, List.mem_cons]
        constructor
        · rintro ⟨r, hr, hc⟩
          exact ⟨r, Or.inr hr, hc⟩
        · rintro ⟨r, hr | hr, hc⟩
          · exact absurd (hr ▸ hc) h
          · exact ⟨r, hr, hc⟩

theorem alookup_aset (l : List (String × IPState)) (k ip' : String) (v : IPState) :
    alookup (aset l k v) ip' = if ip' = k then some v else alookup l ip' := by
  induction l with
  | nil =>
      by_cases h : ip' = k
      · simp [aset, alookup, h]
      · have h' : ¬k = ip' := fun hh => h hh.symm
        simp [aset, alookup, h, h']
  | cons p rest ih =>
      obtain ⟨a, w⟩ := p
      by_cases hak : a = k
      · subst hak
        by_cases h : ip' = a
        · simp [aset, alookup, h]
        · have h' : ¬a = ip' := fun hh => h hh.symm
          simp [aset, alookup, h, h']
      · by_cases h : a = ip'
        · have h' : ¬ip' = k := fun hh => hak (h.trans hh)
          simp [aset, alookup, hak, h, h']
        · simp [aset, alookup, hak, h, ih]

theorem alookup_append_of_none (l₁ l₂ : List (String × IPState)) (ip : String)
    (h : alookup l₁ ip = none) : alookup (l₁ ++ l₂) ip = alookup l₂ ip := by
  induction l₁ with
  | nil => rfl
  | cons p rest ih =>
      obtain ⟨a, w⟩ := p
      by_cases ha : a = ip
      · simp [alookup, ha] at h
      · simp only [alookup, if_neg ha] at h ⊢
        exact ih h

theorem alookup_append_of_some (l₁ l₂ : List (String × IPState)) (ip : String)
    (v : IPState) (h : alookup l₁ ip = some v) : alookup (l₁ ++ l₂) ip = some v := by
  induction l₁ with
  | nil => simp [alookup] at h
  | cons p rest ih =>
      obtain ⟨a, w⟩ := p
      by_cases ha : a = ip
      · simp only [alookup, if_pos ha] at h ⊢
        exact h
      · simp only [alookup, if_neg ha] at h ⊢
        exact ih h

theorem alookup_gkCreate (gk : GKState) (ip ip' : String) :
    alookup (gkCreate gk ip).ips ip' =
      if ip' = ip then some ((alookup gk.ips ip).getD IPState.init)
      else alookup gk.ips ip' := by
  unfold gkCreate
  by_cases hs : (alookup gk.ips ip).isSome
  · rw [if_pos hs]
    obtain ⟨v, hv⟩ := Option.isSome_iff_exists.mp hs
    by_cases h : ip' = ip
    · rw [if_pos h, h, hv]
      rfl
    · rw [if_neg h]
  · rw [if_neg hs]
    have hnone : alookup gk.ips ip = none := Option.not_isSome_iff_eq_none.mp hs
    by_cases h : ip' = ip
    · rw [if_pos h, h, alookup_append_of_none _ _ _ hnone, hnone]
      simp [alookup]
    · rw [if_neg h]
      cases hv : alookup gk.ips ip' with
      | some v => exact alookup_append_of_some _ _ _ _ hv
      | none =>
          rw [alookup_append_of_none _ _ _ hv]
          have h' : ¬ip = ip' := fun hh => h hh.symm
          simp [alookup, h']

theorem gkCreate_ban_rule (gk : GKState) (ip : String) :
    (gkCreate gk ip).ban_rule = gk.ban_rule := by
  unfold gkCreate
  split <;> rfl

theorem gkCreate_ban_count (gk : GKState) (ip : String) :
    (gkCreate gk ip).ban_count = gk.ban_count := by
  unfold gkCreate
  split <;> rfl

theorem gkCreate_rate_count (gk : GKState) (ip : String) :
    (gkCreate gk ip).rate_count = gk.rate_count := by
  unfold gkCreate
  split <;> rfl

theorem gkCreate_rules (gk : GKState) (ip : String) :
    (gkCreate gk ip).rate_limit_rules = gk.rate_limit_rules := by
  unfold gkCreate
  split <;> rfl

theorem isIpBanned_ban_entries (rule : BanRule) (ip : String) (st : IPState)
    (now : ℚ) : (isIpBanned rule ip st now).2.ban_entries = st.ban_entries := by
  unfold isIpBanned
  split
  · split
    · split <;> rfl
    · rfl
  · split <;> rfl

theorem isIpBanned_rate_entries (rule : BanRule) (ip : String) (st : IPState)
    (now : ℚ) : (isIpBanned rule ip st now).2.rate_entries = st.rate_entries := by
  unfold isIpBanned
  split
  · split
    · split <;> rfl
    · rfl
  · split <;> rfl

theorem isIpBanned_until_of_ne (rule : BanRule) (ip : String) (st : IPState)
    (now : ℚ) (h : st.ban_active_until ≠ 0) :
    (isIpBanned rule ip st now).2.ban_active_until =
      if st.ban_active_until ≤ now then 0 else st.ban_active_until := by
  by_cases hlt : now < st.ban_active_until
  · simp [isIpBanned, h, hlt, not_le.mpr hlt]
  · simp [isIpBanned, h, hlt, not_lt.mp hlt]

theorem isIpBanned_of_active (rule : BanRule) (ip : String) (st : IPState)
    (now : ℚ) (h : st.ban_active_until ≠ 0) (hlt : now < st.ban_active_until) :
    isIpBanned rule ip st now =
      (some ⟨ip, rule.window, rule.count, some (pyInt (st.ban_active_until - now))⟩,
       st) := by
  simp [isIpBanned, h, hlt]

theorem banStage_ban_entries (gk : GKState) (ip : String) (st : IPState)
    (now : ℚ) : (banStage gk ip st now).2.ban_entries = st.ban_entries := by
  unfold banStage
  cases gk.ban_rule with
  | none => rfl
  | some brule => exact isIpBanned_ban_entries brule ip st now

theorem banStage_rate_entries (gk : GKState) (ip : String) (st : IPState)
    (now : ℚ) : (banStage gk ip st now).2.rate_entries = st.rate_entries := by
  unfold banStage
  cases gk.ban_rule with
  | none => rfl
  | some brule => exact isIpBanned_rate_entries brule ip st now

theorem banStage_until_of_active (gk : GKState) (ip : String) (st : IPState)
    (now : ℚ) (h : st.ban_active_until ≠ 0) (hlt : now < st.ban_active_until) :
    (banStage gk ip st now).2.ban_active_until = st.ban_active_until := by
  unfold banStage
  cases gk.ban_rule with
  | none => rfl
  | some brule =>
      rw [isIpBanned_until_of_ne brule ip st now h, if_neg (not_le.mpr hlt)]

theorem rateStage_of_some (gk : GKState) (ip : String) (st : IPState) (now : ℚ)
    (b : RateBreach)
    (h : isIpRateLimited gk.rate_limit_rules ip st.rate_entries now = some b) :
    rateStage gk ip st now =
      (Decision.denyRate b, { gk with ips := aset gk.ips ip st }) := by
  unfold rateStage
  have hne : gk.rate_limit_rules ≠ [] := by
    intro he
    rw [he] at h
    exact Option.noConfusion h
  rw [if_pos hne, h]

theorem rateStage_of_none (gk : GKState) (ip : String) (st : IPState) (now : ℚ)
    (h : isIpRateLimited gk.rate_limit_rules ip st.rate_entries now = none) :
    rateStage gk ip st now =
      (Decision.allow,
       { gk with ips := aset gk.ips ip (addEntry gk.rate_count st now) }) := by
  unfold rateStage
  split
  · rw [h]
  · rfl

theorem beforeRequest_of_skip (gk : GKState) (m e ip : String) (now : ℚ)
    (h : ¬(m ∉ gk.excluded_methods ∧ e ∉ gk.bypass_routes)) :
    beforeRequest gk m e ip now = (Decision.allow, gk) := by
  unfold beforeRequest
  rw [if_neg h]

theorem beforeRequest_of_ban (gk : GKState) (m e ip : String) (now : ℚ)
    (b : BanBreach) (st1 : IPState)
    (hg : m ∉ gk.excluded_methods ∧ e ∉ gk.bypass_routes)
    (h : banStage (gkCreate gk ip) ip
        ((alookup (gkCreate gk ip).ips ip).getD IPState.init) now = (some b, st1)) :
    beforeRequest gk m e ip now =
      (Decision.denyBan b,
       { gkCreate gk ip with ips := aset (gkCreate gk ip).ips ip st1 }) := by
  unfold beforeRequest
  rw [if_pos hg, h]

theorem beforeRequest_of_noban (gk : GKState) (m e ip : String) (now : ℚ)
    (st1 : IPState) (hg : m ∉ gk.excluded_methods ∧ e ∉ gk.bypass_routes)
    (h : banStage (gkCreate gk ip) ip
        ((alookup (gkCreate gk ip).ips ip).getD IPState.init) now = (none, st1)) :
    beforeRequest gk m e ip now = rateStage (gkCreate gk ip) ip st1 now := by
  unfold beforeRequest
  rw [if_pos hg, h]

theorem head?_inWindow (entries : List ℚ) (w now e : ℚ)
    (h : (inWindow entries w now).head? = some e) : now - w ≤ e := by
  have hmem : e ∈ inWindow entries w now := by
    cases hl : inWindow entries w now with
    | nil => rw [hl] at h; exact Option.noConfusion h
    | cons a l =>
        rw [hl] at h
        simp only [List.head?_cons, Option.some.injEq] at h
        subst h
        exact List.mem_cons_self a l
  have := List.of_mem_filter hmem
  simpa using this

theorem beforeRequest_classify (gk : GKState) (m e ip : String) (now : ℚ)
    (hg : m ∉ gk.excluded_methods ∧ e ∉ gk.bypass_routes) :
    (∃ b st1,
      banStage (gkCreate gk ip) ip
          ((alookup (gkCreate gk ip).ips ip).getD IPState.init) now = (some b, st1) ∧
      beforeRequest gk m e ip now =
        (Decision.denyBan b,
         { gkCreate gk ip with ips := aset (gkCreate gk ip).ips ip st1 })) ∨
    (∃ st1 b,
      banStage (gkCreate gk ip) ip
          ((alookup (gkCreate gk ip).ips ip).getD IPState.init) now = (none, st1) ∧
      isIpRateLimited (gkCreate gk ip).rate_limit_rules ip st1.rate_entries now =
        some b ∧
      beforeRequest gk m e ip now =
        (Decision.denyRate b,
         { gkCreate gk ip with ips := aset (gkCreate gk ip).ips ip st1 })) ∨
    (∃ st1,
      banStage (gkCreate gk ip) ip
          ((alookup (gkCreate gk ip).ips ip).getD IPState.init) now = (none, st1) ∧
      isIpRateLimited (gkCreate gk ip).rate_limit_rules ip st1.rate_entries now =
        none ∧
      beforeRequest gk m e ip now =
        (Decision.allow,
         { gkCreate gk ip with
             ips := aset (gkCreate gk ip).ips ip
               (addEntry (gkCreate gk ip).rate_count st1 now) })) := by
  rcases hbs : banStage (gkCreate gk ip) ip
      ((alookup (gkCreate gk ip).ips ip).getD IPState.init) now with ⟨ob, st1⟩
  cases ob with
  | some b =>
      exact Or.inl ⟨b, st1, rfl, beforeRequest_of_ban gk m e ip now b st1 hg hbs⟩
  | none =>
      cases hrl : isIpRateLimited (gkCreate gk ip).rate_limit_rules ip
          st1.rate_entries now with
      | some b =>
          refine Or.inr (Or.inl ⟨st1, b, rfl, hrl, ?_⟩)
          rw [beforeRequest_of_noban gk m e ip now st1 hg hbs]
          exact rateStage_of_some (gkCreate gk ip) ip st1 now b hrl
      | none =>
          refine Or.inr (Or.inr ⟨st1, rfl, hrl, ?_⟩)
          rw [beforeRequest_of_noban gk m e ip now st1 hg hbs]
          exact rateStage_of_none (gkCreate gk ip) ip st1 now hrl

theorem specificWrapper_deny (sgk : GKState) (ip : String) (now : ℚ)
    (b : RateBreach) (h : (specificWrapper sgk ip now).1 = Decision.denyRate b) :
    specificWrapper sgk ip now = (Decision.denyRate b, gkCreate sgk ip) := by
  unfold specificWrapper at h ⊢
  by_cases hr : (gkCreate sgk ip).rate_limit_rules ≠ []
  · rw [if_pos hr] at h ⊢
    cases hl : isIpRateLimited (gkCreate sgk ip).rate_limit_rules ip
        ((alookup (gkCreate sgk ip).ips ip).getD IPState.init).rate_entries now with
    | some b' =>
        rw [hl] at h
        dsimp only at h
        injection h with h
        rw [h]
    | none =>
        rw [hl] at h
        dsimp only at h
        exact absurd h (by simp)
  · rw [if_neg hr] at h
    dsimp only at h
    exact absurd h (by simp)

theorem dequeAppend_length_le (cap : Nat) (buf : List ℚ) (t : ℚ)
    (h : buf.length ≤ cap) : (dequeAppend cap buf t).length ≤ cap := by
  unfold dequeAppend
  split
  · simp
  · split
    · rename_i hc hfull
      simp only [List.length_append, List.length_tail, List.length_singleton]
      omega
    · rename_i hc hfull
      simp only [List.length_append, List.length_singleton]
      omega

theorem capInv_aset (gk : GKState) (ip : String) (st' : IPState)
    (hinv : capInv gk) (hok : capOk gk.ban_count gk.rate_count st') :
    capInv { gk with ips := aset gk.ips ip st' } := by
  intro ip' st h
  show capOk gk.ban_count gk.rate_count st
  rw [show ({ gk with ips := aset gk.ips ip st' } : GKState).ips =
      aset gk.ips ip st' from rfl, alookup_aset] at h
  by_cases hip : ip' = ip
  · rw [if_pos hip] at h
    simp only [Option.some.injEq] at h
    subst h
    exact hok
  · rw [if_neg hip] at h
    exact hinv ip' st h

theorem capInv_gkCreate (gk : GKState) (ip : String) (hinv : capInv gk) :
    capInv (gkCreate gk ip) := by
  intro ip' st h
  rw [alookup_gkCreate] at h
  show capOk (gkCreate gk ip).ban_count (gkCreate gk ip).rate_count st
  rw [gkCreate_ban_count, gkCreate_rate_count]
  by_cases hip : ip' = ip
  · rw [if_pos hip] at h
    simp only [Option.some.injEq] at h
    cases hl : alookup gk.ips ip with
    | some w =>
        rw [hl] at h
        have : st = w := by rw [← h]; rfl
        subst this
        exact hinv ip st hl
    | none =>
        rw [hl] at h
        have : st = IPState.init := by rw [← h]; rfl
        subst this
        exact ⟨Nat.zero_le _, Nat.zero_le _⟩
  · rw [if_neg hip] at h
    exact hinv ip' st h

theorem capOk_st0 (gk : GKState) (ip : String) (hinv : capInv gk) :
    capOk gk.ban_count gk.rate_count
      ((alookup (gkCreate gk ip).ips ip).getD IPState.init) := by
  have hl : alookup (gkCreate gk ip).ips ip =
      some ((alookup gk.ips ip).getD IPState.init) := by
    rw [alookup_gkCreate, if_pos rfl]
  rw [hl]
  show capOk gk.ban_count gk.rate_count ((alookup gk.ips ip).getD IPState.init)
  cases hv : alookup gk.ips ip with
  | some w => exact hinv ip w hv
  | none => exact ⟨Nat.zero_le _, Nat.zero_le _⟩

theorem rateRun_append (rules : List RateRule) (cap : Nat) (ip : String)
    (entries ts₁ ts₂ : List ℚ) :
    rateRun rules cap ip entries (ts₁ ++ ts₂) =
      ((rateRun rules cap ip entries ts₁).1 ++
        (rateRun rules cap ip (rateRun rules cap ip entries ts₁).2 ts₂).1,
       (rateRun rules cap ip (rateRun rules cap ip entries ts₁).2 ts₂).2) := by
  induction ts₁ generalizing entries with
  | nil => simp [rateRun]
  | cons t ts ih => simp [rateRun, ih]

theorem rateRun_allows (count : Nat) (window : ℚ) (ip : String)
    (ts : List ℚ) (entries : List ℚ)
    (h : entries.length + ts.length ≤ count) :
    rateRun [⟨count, window⟩] count ip entries ts =
      (List.replicate ts.length true, entries ++ ts) := by
  induction ts generalizing entries with
  | nil => simp [rateRun]
  | cons t ts ih =>
      have hlt : entries.length < count := by
        simp only [List.length_cons] at h
        omega
      have hlen : (inWindow entries window t).length < count :=
        lt_of_le_of_lt (List.length_filter_le _ _) hlt
      have hnone : isIpRateLimited [⟨count, window⟩] ip entries t = none := by
        rw [← Option.not_isSome_iff_eq_none, isIpRateLimited_isSome_iff]
        rintro ⟨r, hr, hc⟩
        simp only [List.mem_singleton] at hr
        subst hr
        exact absurd hc (not_le.mpr hlen)
      have hdq : dequeAppend count entries t = entries ++ [t] := by
        unfold dequeAppend
        rw [if_neg (by omega), if_neg (by omega)]
      simp only [rateRun, rateAdmit, hnone, hdq]
      rw [ih (entries ++ [t])
        (by simp only [List.length_append, List.length_cons,
              List.length_nil] at h ⊢; omega)]
      simp [List.replicate_succ]

/-! Theorems settling the claims. -/

/-- C8: the allow/deny outcome of `_is_ip_rate_limited` is invariant under
permutation of the rule list — it denies iff some rule has at least `count`
in-window entries — although the reported breach may differ. -/
theorem rate_deny_outcome_perm_invariant (rules rules' : List RateRule)
    (ip : String) (entries : List ℚ) (now : ℚ) (h : List.Perm rules rules') :
    ((isIpRateLimited rules ip entries now).isSome ↔
      (isIpRateLimited rules' ip entries now).isSome) ∧
    ((isIpRateLimited rules ip entries now).isSome ↔
      ∃ r ∈ rules, r.count ≤ (inWindow entries r.window now).length) := by
  refine ⟨?_, isIpRateLimited_isSome_iff rules ip entries now⟩
  rw [isIpRateLimited_isSome_iff, isIpRateLimited_isSome_iff]
  constructor
  · rintro ⟨r, hr, hc⟩
    exact ⟨r, h.mem_iff.mp hr, hc⟩
  · rintro ⟨r, hr, hc⟩
    exact ⟨r, h.mem_iff.mpr hr, hc⟩

/-- Witness for C8, at two swapped two-rule lists and a one-entry buffer. -/
theorem rate_deny_outcome_perm_invariant_witness :
    ((isIpRateLimited [RateRule.mk 1 5, RateRule.mk 3 10] "198.51.100.4" [0] 1).isSome ↔
      (isIpRateLimited [RateRule.mk 3 10, RateRule.mk 1 5] "198.51.100.4" [0] 1).isSome) ∧
    ((isIpRateLimited [RateRule.mk 1 5, RateRule.mk 3 10] "198.51.100.4" [0] 1).isSome ↔
      ∃ r ∈ [RateRule.mk 1 5, RateRule.mk 3 10],
        r.count ≤ (inWindow [0] r.window 1).length) :=
  rate_deny_outcome_perm_invariant [RateRule.mk 1 5, RateRule.mk 3 10]
    [RateRule.mk 3 10, RateRule.mk 1 5] "198.51.100.4" [0] 1
    (List.Perm.swap (RateRule.mk 3 10) (RateRule.mk 1 5) [])

/-- C2 counterexample: with rule `{count := 1, window := 3/2}`, one recorded
entry at t = 0 and a request at t = 1, the code reports retry-after 0
(`int(0 + 3/2 - 1) or 0`), while `max 0 ⌈oldest + window - now⌉` is 1:
the code rounds down, not up. -/
theorem retry_after_not_ceiling_cex :
    isIpRateLimited [⟨1, 3/2⟩] "203.0.113.7" [0] 1 =
      some ⟨"203.0.113.7", 3/2, 1, some 0⟩ ∧
    max 0 ⌈(0 : ℚ) + 3/2 - 1⌉ = (1 : ℤ) ∧ (0 : ℤ) ≠ 1 := by
  refine ⟨?_, ?_, by decide⟩
  · have hfil : inWindow [0] (3/2) 1 = [0] := by
      norm_num [inWindow, List.filter]
    have hpy : pyInt ((3 : ℚ)/2 - 1) = 0 := by
      rw [pyInt, if_pos (by norm_num), show (3 : ℚ)/2 - 1 = 1/2 by norm_num,
        Int.floor_eq_iff]
      constructor <;> norm_num
    simp [isIpRateLimited, hfil, hpy]
  · rw [show (0 : ℚ) + 3/2 - 1 = 1/2 by norm_num]
    rw [show ⌈(1/2 : ℚ)⌉ = 1 from Int.ceil_eq_iff.mpr (by constructor <;> norm_num)]
    rfl

/-- C2 amended: the retry-after reported on a rate-limit breach is the
truncation `int(oldestWithin + window - now)` of the breached rule, which is
the floor of a nonnegative quantity (so it is rounded down, never up, and no
`max 0` clamp is involved). -/
theorem retry_after_floor_of_oldest (rules : List RateRule) (ip : String)
    (entries : List ℚ) (now : ℚ) (b : RateBreach)
    (h : isIpRateLimited rules ip entries now = some b) :
    b.retry = (inWindow entries b.window now).head?.map
        (fun e => ⌊e + b.window - now⌋) ∧
    (∀ r, b.retry = some r → 0 ≤ r) := by
  induction rules with
  | nil => exact Option.noConfusion h
  | cons rule rest ih =>
      by_cases hc : rule.count ≤ (inWindow entries rule.window now).length
      · simp only [isIpRateLimited, if_pos hc, Option.some.injEq] at h
        subst h
        dsimp only
        cases hhead : (inWindow entries rule.window now).head? with
        | none => simp [hhead]
        | some e =>
            have he : now - rule.window ≤ e := head?_inWindow _ _ _ _ hhead
            have hpos : 0 ≤ e + rule.window - now := by linarith
            have hpy : pyInt (e + rule.window - now) = ⌊e + rule.window - now⌋ := by
              rw [pyInt, if_pos hpos]
            constructor
            · simp only [Option.map_some', hpy]
            · intro r hr
              simp only [Option.map_some', Option.some.injEq] at hr
              rw [← hr, hpy]
              exact Int.floor_nonneg.mpr hpos
      · simp only [isIpRateLimited, if_neg hc] at h
        exact ih h

/-- Witness for C2's amended statement, at rule `{count := 1, window := 2}`,
one entry at t = 0 and a request at t = 1 (reported retry-after 1). -/
theorem retry_after_floor_of_oldest_witness :
    (RateBreach.mk "198.51.100.1" 2 1 (some 1)).retry =
      (inWindow [0] (RateBreach.mk "198.51.100.1" 2 1 (some 1)).window 1).head?.map
        (fun e => ⌊e + (RateBreach.mk "198.51.100.1" 2 1 (some 1)).window - 1⌋) ∧
    (∀ r, (RateBreach.mk "198.51.100.1" 2 1 (some 1)).retry = some r → 0 ≤ r) :=
  retry_after_floor_of_oldest [⟨1, 2⟩] "198.51.100.1" [0] 1
    ⟨"198.51.100.1", 2, 1, some 1⟩ (by
      have hfil : inWindow [0] 2 1 = [0] := by norm_num [inWindow, List.filter]
      have hpy : pyInt ((2 : ℚ) - 1) = 1 := by
        rw [pyInt, if_pos (by norm_num), show (2 : ℚ) - 1 = 1 by norm_num]
        exact Int.floor_one
      simp [isIpRateLimited, hfil, hpy])

/-- C5 counterexample: client `198.51.100.9` of `gkBannedDemo` is serving an
active ban at t = 0 (a non-excluded request is denied with the 403 ban
response), yet a request with the excluded method `HEAD` is allowed and the
state is untouched — the claim that a banned client is still denied on an
excluded-method request is false. -/
theorem excluded_method_banned_client_allowed_cex :
    (alookup gkBannedDemo.ips "198.51.100.9").map IPState.ban_active_until =
      some 100 ∧
    (beforeRequest gkBannedDemo "GET" "ping" "198.51.100.9" 0).1 =
      Decision.denyBan ⟨"198.51.100.9", 10, 3, some 100⟩ ∧
    beforeRequest gkBannedDemo "HEAD" "ping" "198.51.100.9" 0 =
      (Decision.allow, gkBannedDemo) := by
  refine ⟨by simp [gkBannedDemo, alookup], ?_, ?_⟩
  · norm_num [beforeRequest, gkBannedDemo, gkCreate, alookup, banStage,
      isIpBanned, pyInt, Int.floor_ofNat, show ¬("GET" = "HEAD") by decide]
  · norm_num [beforeRequest, gkBannedDemo]

/-- C5 amended: a request whose method is excluded skips the whole of
`_before_request` — no counter is touched and the request is allowed even
when the client is currently banned, because the ban check is skipped too. -/
theorem excluded_method_always_allowed (gk : GKState) (m e ip : String)
    (now : ℚ) (h : m ∈ gk.excluded_methods) :
    beforeRequest gk m e ip now = (Decision.allow, gk) := by
  unfold beforeRequest
  rw [if_neg]
  intro hc
  exact hc.1 h

/-- Witness for C5's amended statement: a `HEAD` request to `gkBannedDemo`. -/
theorem excluded_method_always_allowed_witness :
    beforeRequest gkBannedDemo "HEAD" "home" "198.51.100.9" 7 =
      (Decision.allow, gkBannedDemo) :=
  excluded_method_always_allowed gkBannedDemo "HEAD" "home" "198.51.100.9" 7
    (by simp [gkBannedDemo])

/-- C6 counterexample: `report` on a fresh instance for a never-seen
identifier raises `KeyError` (modelled as `none`) — there is no get-or-create
on the report path, so the claim that report-path lookups never fail is
false. -/
theorem report_unseen_ip_keyerror_cex :
    report (gkInit none [] []) "203.0.113.9" 5 = none := rfl

/-- C6 amended: request-path lookups never fail (`_create` has get-or-create
semantics), but `report` succeeds exactly when the identifier is already in
the `ips` dict, and raises `KeyError` otherwise. -/
theorem lookup_get_or_create_report_domain :
    (∀ (gk : GKState) (ip : String), (alookup (gkCreate gk ip).ips ip).isSome) ∧
    (∀ (gk : GKState) (ip : String) (now : ℚ),
      (report gk ip now).isSome ↔ (alookup gk.ips ip).isSome) := by
  constructor
  · intro gk ip
    rw [alookup_gkCreate gk ip ip, if_pos rfl]
    rfl
  · intro gk ip now
    unfold report
    cases h : alookup gk.ips ip <;> simp

/-- C7 counterexample: constructing the engine with the misconfigured rate
rule `{count := 0, window := 10}` completes normally (no validation), and the
misbehaviour shows up at request time instead: the very first request is
denied, with the retry computation hitting `rule_entries[0]` on an empty
list (Python `IndexError`, modelled as `none`). -/
theorem misconfigured_rule_constructor_completes_cex :
    (gkInit none [⟨0, 10⟩] []).rate_limit_rules = [⟨0, 10⟩] ∧
    (gkInit none [⟨0, 10⟩] []).rate_count = 0 ∧
    (beforeRequest (gkInit none [⟨0, 10⟩] []) "GET" "home" "192.0.2.1" 0).1 =
      Decision.denyRate ⟨"192.0.2.1", 10, 0, none⟩ :=
  ⟨rfl, rfl, by
    norm_num [beforeRequest, gkInit, gkCreate, alookup, banStage, rateStage,
      isIpRateLimited, inWindow, maxCount, IPState.init]⟩

/-- C7 amended: `__init__` performs no validation at all — it completes for
every configuration, including non-positive rule fields, merely storing the
rules and deriving the two deque capacities; any misbehaviour surfaces at
request time. -/
theorem gkInit_total_no_validation (b : Option BanRule) (rules : List RateRule)
    (ex : List String) :
    (gkInit b rules ex).ban_rule = b ∧
    (gkInit b rules ex).rate_limit_rules = rules ∧
    (gkInit b rules ex).excluded_methods = ex ∧
    (gkInit b rules ex).rate_count = maxCount rules ∧
    (gkInit b rules ex).ban_count =
      (match b with | some br => br.count | none => 0) ∧
    (gkInit b rules ex).ips = [] :=
  ⟨rfl, rfl, rfl, rfl, rfl, rfl⟩

/-- C10: route exemption is keyed by the handler function's name — `bypass`
(and `specific` with `standalone := True`) adds the wrapped function's
`__name__` to `bypass_routes`, and `_before_request` skips any request whose
endpoint is in that set; hence exempting one of two routes whose handlers
share a name exempts both. -/
theorem bypass_keyed_by_handler_name (gk : GKState) (r₁ r₂ : Route)
    (h : r₁.handlerName = r₂.handlerName) (m ip : String) (now : ℚ) :
    beforeRequest (bypassRoute gk r₁.handlerName) m (endpointOf r₂) ip now =
      (Decision.allow, bypassRoute gk r₁.handlerName) ∧
    beforeRequest (standaloneRegister gk r₁.handlerName) m (endpointOf r₂) ip
        now =
      (Decision.allow, standaloneRegister gk r₁.handlerName) := by
  constructor <;>
  · unfold beforeRequest
    rw [if_neg]
    intro hc
    refine hc.2 ?_
    show endpointOf r₂ ∈ List.insert r₁.handlerName gk.bypass_routes
    rw [endpointOf, ← h]
    exact List.mem_insert_self _ _

/-- Witness for C10: two distinct routes whose handlers are both named
`status`; bypassing the first exempts a request dispatched to the second. -/
theorem bypass_keyed_by_handler_name_witness :
    beforeRequest (bypassRoute (gkInit none [⟨20, 1⟩] []) (Route.mk "status").handlerName)
        "GET" (endpointOf (Route.mk "status")) "192.0.2.8" 3 =
      (Decision.allow,
       bypassRoute (gkInit none [⟨20, 1⟩] []) (Route.mk "status").handlerName) ∧
    beforeRequest
        (standaloneRegister (gkInit none [⟨20, 1⟩] []) (Route.mk "status").handlerName)
        "GET" (endpointOf (Route.mk "status")) "192.0.2.8" 3 =
      (Decision.allow,
       standaloneRegister (gkInit none [⟨20, 1⟩] []) (Route.mk "status").handlerName) :=
  bypass_keyed_by_handler_name (gkInit none [⟨20, 1⟩] []) (Route.mk "status")
    (Route.mk "status") rfl "GET" "192.0.2.8" 3

theorem aset_map_lookup {α : Type} (l : List (String × IPState)) (ip ip' : String)
    (st0 st1 : IPState) (hl : alookup l ip = some st0) (f : IPState → α)
    (h1 : f st1 = f st0) :
    (alookup (aset l ip st1) ip').map f = (alookup l ip').map f := by
  rw [alookup_aset]
  by_cases hip : ip' = ip
  · rw [if_pos hip, hip, hl]
    simp [h1]
  · rw [if_neg hip]

theorem alookup_gkCreate_self (gk : GKState) (ip : String) :
    alookup (gkCreate gk ip).ips ip =
      some ((alookup (gkCreate gk ip).ips ip).getD IPState.init) := by
  have h : alookup (gkCreate gk ip).ips ip =
      some ((alookup gk.ips ip).getD IPState.init) := by
    rw [alookup_gkCreate, if_pos rfl]
  rw [h]
  rfl

theorem br_deny_rate_unchanged (gk : GKState) (m e ip : String) (now : ℚ)
    (hd : (beforeRequest gk m e ip now).1 ≠ Decision.allow) (ip' : String) :
    (alookup (beforeRequest gk m e ip now).2.ips ip').map IPState.rate_entries =
      (alookup (gkCreate gk ip).ips ip').map IPState.rate_entries := by
  by_cases hg : m ∉ gk.excluded_methods ∧ e ∉ gk.bypass_routes
  case neg =>
    rw [beforeRequest_of_skip gk m e ip now hg] at hd
    exact absurd rfl hd
  case pos =>
    rcases beforeRequest_classify gk m e ip now hg with
        ⟨b, st1, hbs, hbr⟩ | ⟨st1, b, hbs, hrl, hbr⟩ | ⟨st1, hbs, hrl, hbr⟩
    · rw [hbr]
      show (alookup (aset (gkCreate gk ip).ips ip st1) ip').map IPState.rate_entries = _
      refine aset_map_lookup _ ip ip' _ st1 (alookup_gkCreate_self gk ip)
        IPState.rate_entries ?_
      have h2 := banStage_rate_entries (gkCreate gk ip) ip
        ((alookup (gkCreate gk ip).ips ip).getD IPState.init) now
      rw [hbs] at h2
      exact h2
    · rw [hbr]
      show (alookup (aset (gkCreate gk ip).ips ip st1) ip').map IPState.rate_entries = _
      refine aset_map_lookup _ ip ip' _ st1 (alookup_gkCreate_self gk ip)
        IPState.rate_entries ?_
      have h2 := banStage_rate_entries (gkCreate gk ip) ip
        ((alookup (gkCreate gk ip).ips ip).getD IPState.init) now
      rw [hbs] at h2
      exact h2
    · rw [hbr] at hd
      exact absurd rfl hd

theorem br_allow_records (gk : GKState) (m e ip : String) (now : ℚ)
    (hd : (beforeRequest gk m e ip now).1 = Decision.allow)
    (hm : m ∉ gk.excluded_methods) (he : e ∉ gk.bypass_routes) :
    (alookup (beforeRequest gk m e ip now).2.ips ip).map IPState.rate_entries =
      some (dequeAppend gk.rate_count
        (((alookup (gkCreate gk ip).ips ip).getD IPState.init).rate_entries) now) := by
  rcases beforeRequest_classify gk m e ip now ⟨hm, he⟩ with
      ⟨b, st1, hbs, hbr⟩ | ⟨st1, b, hbs, hrl, hbr⟩ | ⟨st1, hbs, hrl, hbr⟩
  · rw [hbr] at hd
    exact absurd hd (by simp)
  · rw [hbr] at hd
    exact absurd hd (by simp)
  · rw [hbr]
    show (alookup (aset (gkCreate gk ip).ips ip
        (addEntry (gkCreate gk ip).rate_count st1 now)) ip).map IPState.rate_entries = _
    rw [alookup_aset, if_pos rfl]
    have h2 : st1.rate_entries =
        ((alookup (gkCreate gk ip).ips ip).getD IPState.init).rate_entries := by
      have h3 := banStage_rate_entries (gkCreate gk ip) ip
        ((alookup (gkCreate gk ip).ips ip).getD IPState.init) now
      rw [hbs] at h3
      exact h3
    show some (dequeAppend (gkCreate gk ip).rate_count st1.rate_entries now) = _
    rw [h2, gkCreate_rate_count]

theorem aset_until_other (gk : GKState) (ip ip' : String) (st stF : IPState)
    (hst : alookup gk.ips ip' = some st)
    (huntil : ip' = ip → stF.ban_active_until = st.ban_active_until) :
    (alookup (aset (gkCreate gk ip).ips ip stF) ip').map IPState.ban_active_until =
      some st.ban_active_until := by
  rw [alookup_aset]
  by_cases hip : ip' = ip
  · rw [if_pos hip]
    simp [huntil hip]
  · rw [if_neg hip, alookup_gkCreate, if_neg hip, hst]
    rfl

/-- C1: with a single rule `{count, window}` binding (capacity `count`), a
client starting from an empty buffer is allowed exactly `count` requests and
the `(count+1)`-th request, falling within `window` of all of them, is denied
by the rate evaluator; in general the evaluator denies iff some rule has at
least `count` recorded entries with timestamp `>= now - window`. -/
theorem rate_exact_count_then_deny :
    (∀ (count : Nat) (window : ℚ) (ip : String) (first : List ℚ) (last : ℚ),
      1 ≤ count → first.length = count →
      (∀ t ∈ first, last - window ≤ t) →
      rateRun [⟨count, window⟩] count ip [] (first ++ [last]) =
        (List.replicate count true ++ [false], first) ∧
      ∃ b : RateBreach, isIpRateLimited [⟨count, window⟩] ip first last = some b) ∧
    (∀ (rules : List RateRule) (ip : String) (entries : List ℚ) (now : ℚ),
      (isIpRateLimited rules ip entries now).isSome ↔
        ∃ r ∈ rules, r.count ≤ (inWindow entries r.window now).length) := by
  constructor
  · intro count window ip first last hc hlen hwin
    have hfil : inWindow first window last = first := by
      rw [inWindow, List.filter_eq_self]
      intro a ha
      simpa using hwin a ha
    have hsome : (isIpRateLimited [⟨count, window⟩] ip first last).isSome := by
      rw [isIpRateLimited_isSome_iff]
      refine ⟨⟨count, window⟩, List.mem_singleton_self _, ?_⟩
      show count ≤ (inWindow first window last).length
      rw [hfil, hlen]
    obtain ⟨b, hb⟩ := Option.isSome_iff_exists.mp hsome
    refine ⟨?_, b, hb⟩
    rw [rateRun_append, rateRun_allows count window ip first []
      (by simp [hlen])]
    simp only [List.nil_append]
    simp [rateRun, rateAdmit, hb, hlen]
  · exact isIpRateLimited_isSome_iff

/-- Witness for C1: rule `{count := 2, window := 10}`, requests at t = 0, 1
and a third at t = 2: the first two are admitted, the third is denied. -/
theorem rate_exact_count_then_deny_witness :
    rateRun [⟨2, 10⟩] 2 "198.51.100.2" [] ([0, 1] ++ [2]) =
      (List.replicate 2 true ++ [false], [0, 1]) ∧
    ∃ b : RateBreach, isIpRateLimited [⟨2, 10⟩] "198.51.100.2" [0, 1] 2 = some b :=
  rate_exact_count_then_deny.1 2 10 "198.51.100.2" [0, 1] 2 (by norm_num)
    (by norm_num)
    (by intro t ht; fin_cases ht <;> norm_num)

/-- C3: once `ban_active_until` is set non-zero it is cleared only by an
evaluation at `now >= ban_active_until` (never because entries aged out),
clearing leaves `ban_entries` untouched, `report` never changes
`ban_active_until`, and a full request evaluation during an active ban
preserves the client's `ban_active_until` (the rate stage cannot clear it). -/
theorem ban_active_until_clear_only_on_expiry :
    (∀ (rule : BanRule) (ip : String) (st : IPState) (now : ℚ),
      st.ban_active_until ≠ 0 →
      (isIpBanned rule ip st now).2.ban_active_until =
        if st.ban_active_until ≤ now then 0 else st.ban_active_until) ∧
    (∀ (rule : BanRule) (ip : String) (st : IPState) (now : ℚ),
      (isIpBanned rule ip st now).2.ban_entries = st.ban_entries) ∧
    (∀ (gk : GKState) (ip : String) (now : ℚ) (gk' : GKState),
      report gk ip now = some gk' →
      ∀ ip', (alookup gk'.ips ip').map IPState.ban_active_until =
        (alookup gk.ips ip').map IPState.ban_active_until) ∧
    (∀ (gk : GKState) (m e ip : String) (now : ℚ) (ip' : String) (st : IPState),
      alookup gk.ips ip' = some st → st.ban_active_until ≠ 0 →
      now < st.ban_active_until →
      (alookup (beforeRequest gk m e ip now).2.ips ip').map IPState.ban_active_until =
        some st.ban_active_until) := by
  refine ⟨isIpBanned_until_of_ne, isIpBanned_ban_entries, ?_, ?_⟩
  · intro gk ip now gk' h ip'
    unfold report at h
    cases hl : alookup gk.ips ip with
    | none =>
        rw [hl] at h
        exact Option.noConfusion h
    | some st =>
        rw [hl] at h
        simp only [Option.some.injEq] at h
        subst h
        show (alookup (aset gk.ips ip (addReport gk.ban_count st now)) ip').map
            IPState.ban_active_until = _
        exact aset_map_lookup gk.ips ip ip' st (addReport gk.ban_count st now) hl
          IPState.ban_active_until rfl
  · intro gk m e ip now ip' st hst hne hlt
    by_cases hg : m ∉ gk.excluded_methods ∧ e ∉ gk.bypass_routes
    case neg =>
      rw [beforeRequest_of_skip gk m e ip now hg, hst]
      rfl
    case pos =>
      have hst0 : ip' = ip →
          (alookup (gkCreate gk ip).ips ip).getD IPState.init = st := by
        intro hip
        have hl : alookup (gkCreate gk ip).ips ip = some st := by
          rw [alookup_gkCreate, if_pos rfl, ← hip, hst]
          rfl
        rw [hl]
        rfl
      rcases beforeRequest_classify gk m e ip now hg with
          ⟨b, st1, hbs, hbr⟩ | ⟨st1, b, hbs, hrl, hbr⟩ | ⟨st1, hbs, hrl, hbr⟩
      · rw [hbr]
        show (alookup (aset (gkCreate gk ip).ips ip st1) ip').map
            IPState.ban_active_until = _
        refine aset_until_other gk ip ip' st st1 hst ?_
        intro hip
        have h4 := banStage_until_of_active (gkCreate gk ip) ip
          ((alookup (gkCreate gk ip).ips ip).getD IPState.init) now
          (by rw [hst0 hip]; exact hne) (by rw [hst0 hip]; exact hlt)
        rw [hbs] at h4
        rw [show st1.ban_active_until =
            ((alookup (gkCreate gk ip).ips ip).getD IPState.init).ban_active_until
          from h4, hst0 hip]
      · rw [hbr]
        show (alookup (aset (gkCreate gk ip).ips ip st1) ip').map
            IPState.ban_active_until = _
        refine aset_until_other gk ip ip' st st1 hst ?_
        intro hip
        have h4 := banStage_until_of_active (gkCreate gk ip) ip
          ((alookup (gkCreate gk ip).ips ip).getD IPState.init) now
          (by rw [hst0 hip]; exact hne) (by rw [hst0 hip]; exact hlt)
        rw [hbs] at h4
        rw [show st1.ban_active_until =
            ((alookup (gkCreate gk ip).ips ip).getD IPState.init).ban_active_until
          from h4, hst0 hip]
      · rw [hbr]
        show (alookup (aset (gkCreate gk ip).ips ip
            (addEntry (gkCreate gk ip).rate_count st1 now)) ip').map
            IPState.ban_active_until = _
        refine aset_until_other gk ip ip' st
          (addEntry (gkCreate gk ip).rate_count st1 now) hst ?_
        intro hip
        have h4 := banStage_until_of_active (gkCreate gk ip) ip
          ((alookup (gkCreate gk ip).ips ip).getD IPState.init) now
          (by rw [hst0 hip]; exact hne) (by rw [hst0 hip]; exact hlt)
        rw [hbs] at h4
        show st1.ban_active_until = st.ban_active_until
        rw [show st1.ban_active_until =
            ((alookup (gkCreate gk ip).ips ip).getD IPState.init).ban_active_until
          from h4, hst0 hip]

/-- Witness for C3: lazy unban check on a state banned until t = 50 queried
at t = 10, and a full evaluation of `gkBannedDemo` during its active ban. -/
theorem ban_active_until_clear_only_on_expiry_witness :
    ((isIpBanned ⟨3, 60, 600⟩ "198.51.100.5" ⟨[], [], 50⟩ 10).2.ban_active_until =
      if (50 : ℚ) ≤ 10 then 0 else 50) ∧
    (alookup (beforeRequest gkBannedDemo "GET" "ping" "198.51.100.9" 0).2.ips
        "198.51.100.9").map IPState.ban_active_until = some 100 :=
  ⟨ban_active_until_clear_only_on_expiry.1 ⟨3, 60, 600⟩ "198.51.100.5"
      ⟨[], [], 50⟩ 10 (by norm_num),
   ban_active_until_clear_only_on_expiry.2.2.2 gkBannedDemo "GET" "ping"
      "198.51.100.9" 0 "198.51.100.9" ⟨[], [], 100⟩
      (by simp [gkBannedDemo, alookup]) (by norm_num) (by norm_num)⟩

/-- C4 counterexample: on an overlay route (global rule 2-per-10s, overlay
rule 1-per-10s), the second request at t = 0 is denied by the overlay rule,
yet the global rate counter still grows from one to two entries, because the
global `_before_request` recorded the request before the overlay wrapper ran:
a denied request does increment the global counter. -/
theorem overlay_denial_still_records_global_cex :
    (handleOverlay overlayDemo0 "GET" "specific" "192.0.2.5" 0).1 =
      Decision.allow ∧
    (alookup overlayDemo1.gk.ips "192.0.2.5").map IPState.rate_entries =
      some [0] ∧
    (handleOverlay overlayDemo1 "GET" "specific" "192.0.2.5" 0).1 =
      Decision.denyRate ⟨"192.0.2.5", 10, 1, some 10⟩ ∧
    (alookup (handleOverlay overlayDemo1 "GET" "specific" "192.0.2.5" 0).2.gk.ips
        "192.0.2.5").map IPState.rate_entries = some [0, 0] := by
  refine ⟨?_, ?_, ?_, ?_⟩ <;>
    norm_num [handleOverlay, overlayDemo1, overlayDemo0, beforeRequest,
      specificWrapper, gkInit, gkCreate, alookup, aset, banStage, rateStage,
      isIpRateLimited, inWindow, addEntry, dequeAppend, IPState.init, maxCount,
      pyInt, Int.floor_ofNat]

/-- C4 amended: within a single instance a rate entry is recorded iff that
instance's own evaluation allows the request on a counted path (any denial
leaves every client's rate buffer unchanged); however, for an overlay route,
a request denied by the overlay rule leaves only the overlay instance's
counter unchanged — the global counter has already recorded the request,
since the global stage admitted it before the wrapper ran. -/
theorem rate_entry_recorded_iff_stage_allows :
    (∀ (gk : GKState) (m e ip : String) (now : ℚ),
      (beforeRequest gk m e ip now).1 ≠ Decision.allow →
      ∀ ip', (alookup (beforeRequest gk m e ip now).2.ips ip').map
          IPState.rate_entries =
        (alookup (gkCreate gk ip).ips ip').map IPState.rate_entries) ∧
    (∀ (gk : GKState) (m e ip : String) (now : ℚ),
      (beforeRequest gk m e ip now).1 = Decision.allow →
      m ∉ gk.excluded_methods → e ∉ gk.bypass_routes →
      (alookup (beforeRequest gk m e ip now).2.ips ip).map IPState.rate_entries =
        some (dequeAppend gk.rate_count
          (((alookup (gkCreate gk ip).ips ip).getD IPState.init).rate_entries)
          now)) ∧
    (∀ (app : OverlayApp) (m e ip : String) (now : ℚ) (b : RateBreach),
      (beforeRequest app.gk m e ip now).1 = Decision.allow →
      m ∉ app.gk.excluded_methods → e ∉ app.gk.bypass_routes →
      (handleOverlay app m e ip now).1 = Decision.denyRate b →
      (handleOverlay app m e ip now).2.sgk = gkCreate app.sgk ip ∧
      (alookup (handleOverlay app m e ip now).2.gk.ips ip).map
          IPState.rate_entries =
        some (dequeAppend app.gk.rate_count
          (((alookup (gkCreate app.gk ip).ips ip).getD IPState.init).rate_entries)
          now)) := by
  refine ⟨br_deny_rate_unchanged, br_allow_records, ?_⟩
  intro app m e ip now b hallow hm he hdeny
  rcases hbr : beforeRequest app.gk m e ip now with ⟨d, gk'⟩
  rw [hbr] at hallow
  dsimp only at hallow
  subst hallow
  have hh : handleOverlay app m e ip now =
      ((specificWrapper app.sgk ip now).1,
       ⟨gk', (specificWrapper app.sgk ip now).2⟩) := by
    unfold handleOverlay
    rw [hbr]
  rw [hh] at hdeny ⊢
  dsimp only at hdeny ⊢
  have hsw := specificWrapper_deny app.sgk ip now b hdeny
  constructor
  · rw [hsw]
  · have h5 := br_allow_records app.gk m e ip now (by rw [hbr]) hm he
    rw [hbr] at h5
    exact h5

/-- Witness for C4's amended statement: an admitted request on a two-per-ten
seconds instance records exactly one entry for its client. -/
theorem rate_entry_recorded_iff_stage_allows_witness :
    (alookup (beforeRequest (gkInit none [⟨2, 10⟩] []) "GET" "home"
        "192.0.2.9" 0).2.ips "192.0.2.9").map IPState.rate_entries =
      some (dequeAppend (gkInit none [⟨2, 10⟩] []).rate_count
        (((alookup (gkCreate (gkInit none [⟨2, 10⟩] []) "192.0.2.9").ips
            "192.0.2.9").getD IPState.init).rate_entries) 0) :=
  rate_entry_recorded_iff_stage_allows.2.1 (gkInit none [⟨2, 10⟩] []) "GET"
    "home" "192.0.2.9" 0
    (by norm_num [beforeRequest, gkInit, gkCreate, alookup, aset, banStage,
      rateStage, isIpRateLimited, inWindow, addEntry, dequeAppend, IPState.init,
      maxCount])
    (by simp [gkInit])
    (by simp [gkInit])

/-- C9: the capacity invariant — every client's `ban_entries` is at most
`ban_count` long and `rate_entries` at most `rate_count` long — is preserved
by request evaluation and by `report`; the deque append keeps length within
capacity, and an append to a full non-trivial deque evicts the oldest entry. -/
theorem buffer_capacity_invariant_preserved :
    (∀ (gk : GKState) (m e ip : String) (now : ℚ), capInv gk →
      capInv (beforeRequest gk m e ip now).2) ∧
    (∀ (gk : GKState) (ip : String) (now : ℚ) (gk' : GKState), capInv gk →
      report gk ip now = some gk' → capInv gk') ∧
    (∀ (cap : Nat) (buf : List ℚ) (t : ℚ), buf.length ≤ cap →
      (dequeAppend cap buf t).length ≤ cap) ∧
    (∀ (cap : Nat) (buf : List ℚ) (t : ℚ), buf.length = cap → cap ≠ 0 →
      dequeAppend cap buf t = buf.tail ++ [t]) := by
  refine ⟨?_, ?_, dequeAppend_length_le, ?_⟩
  · intro gk m e ip now hinv
    by_cases hg : m ∉ gk.excluded_methods ∧ e ∉ gk.bypass_routes
    case neg =>
      rw [beforeRequest_of_skip gk m e ip now hg]
      exact hinv
    case pos =>
      have hinv1 := capInv_gkCreate gk ip hinv
      have hok0 := capOk_st0 gk ip hinv
      rcases beforeRequest_classify gk m e ip now hg with
          ⟨b, st1, hbs, hbr⟩ | ⟨st1, b, hbs, hrl, hbr⟩ | ⟨st1, hbs, hrl, hbr⟩
      · rw [hbr]
        apply capInv_aset _ _ _ hinv1
        rw [gkCreate_ban_count, gkCreate_rate_count]
        have hb : st1.ban_entries =
            ((alookup (gkCreate gk ip).ips ip).getD IPState.init).ban_entries := by
          have h6 := banStage_ban_entries (gkCreate gk ip) ip
            ((alookup (gkCreate gk ip).ips ip).getD IPState.init) now
          rw [hbs] at h6
          exact h6
        have hr : st1.rate_entries =
            ((alookup (gkCreate gk ip).ips ip).getD IPState.init).rate_entries := by
          have h6 := banStage_rate_entries (gkCreate gk ip) ip
            ((alookup (gkCreate gk ip).ips ip).getD IPState.init) now
          rw [hbs] at h6
          exact h6
        refine ⟨?_, ?_⟩
        · rw [hb]
          exact hok0.1
        · rw [hr]
          exact hok0.2
      · rw [hbr]
        apply capInv_aset _ _ _ hinv1
        rw [gkCreate_ban_count, gkCreate_rate_count]
        have hb : st1.ban_entries =
            ((alookup (gkCreate gk ip).ips ip).getD IPState.init).ban_entries := by
          have h6 := banStage_ban_entries (gkCreate gk ip) ip
            ((alookup (gkCreate gk ip).ips ip).getD IPState.init) now
          rw [hbs] at h6
          exact h6
        have hr : st1.rate_entries =
            ((alookup (gkCreate gk ip).ips ip).getD IPState.init).rate_entries := by
          have h6 := banStage_rate_entries (gkCreate gk ip) ip
            ((alookup (gkCreate gk ip).ips ip).getD IPState.init) now
          rw [hbs] at h6
          exact h6
        refine ⟨?_, ?_⟩
        · rw [hb]
          exact hok0.1
        · rw [hr]
          exact hok0.2
      · rw [hbr]
        apply capInv_aset _ _ _ hinv1
        rw [gkCreate_ban_count, gkCreate_rate_count]
        have hb : st1.ban_entries =
            ((alookup (gkCreate gk ip).ips ip).getD IPState.init).ban_entries := by
          have h6 := banStage_ban_entries (gkCreate gk ip) ip
            ((alookup (gkCreate gk ip).ips ip).getD IPState.init) now
          rw [hbs] at h6
          exact h6
        have hr : st1.rate_entries =
            ((alookup (gkCreate gk ip).ips ip).getD IPState.init).rate_entries := by
          have h6 := banStage_rate_entries (gkCreate gk ip) ip
            ((alookup (gkCreate gk ip).ips ip).getD IPState.init) now
          rw [hbs] at h6
          exact h6
        refine ⟨?_, ?_⟩
        · show st1.ban_entries.length ≤ gk.ban_count
          rw [hb]
          exact hok0.1
        · show (dequeAppend gk.rate_count st1.rate_entries now).length ≤
            gk.rate_count
          rw [hr]
          exact dequeAppend_length_le _ _ _ hok0.2
  · intro gk ip now gk' hinv h
    unfold report at h
    cases hl : alookup gk.ips ip with
    | none =>
        rw [hl] at h
        exact Option.noConfusion h
    | some st =>
        rw [hl] at h
        simp only [Option.some.injEq] at h
        subst h
        apply capInv_aset gk ip _ hinv
        refine ⟨?_, ?_⟩
        · show (dequeAppend gk.ban_count st.ban_entries now).length ≤ gk.ban_count
          exact dequeAppend_length_le _ _ _ (hinv ip st hl).1
        · show st.rate_entries.length ≤ gk.rate_count
          exact (hinv ip st hl).2
  · intro cap buf t hfull hcap
    unfold dequeAppend
    rw [if_neg hcap, if_pos hfull]

/-- Witness for C9: the invariant holds after one evaluated request on a
fresh instance with a ban rule and one rate rule. -/
theorem buffer_capacity_invariant_preserved_witness :
    capInv (beforeRequest (gkInit (some ⟨3, 60, 600⟩) [⟨2, 10⟩] []) "GET"
      "home" "192.0.2.3" 0).2 :=
  buffer_capacity_invariant_preserved.1 (gkInit (some ⟨3, 60, 600⟩) [⟨2, 10⟩] [])
    "GET" "home" "192.0.2.3" 0
    (by intro ip st h; simp [gkInit, alookup] at h)

end Gatekeeper
